import Mathlib

/-!
Verification of the Mandelbrot benchmark core of this repository: the CPU
reference evaluator (calculateMandelbrotCPU), the WGSL compute kernel
(computeShaderWGSL, entry point main), and the per-pixel colorizer inside
drawMandelbrot, shallowly embedded from the source file.

Modelling conventions:
* Floating-point arithmetic on the complex coordinates and on z is idealized
  as exact rational arithmetic over ℚ.
* Machine integers are ℕ with explicit reduction modulo 2^32 wherever a u32
  is involved: the WGSL loop counter and index arithmetic, and the store into
  the Uint32Array output (JavaScript ToUint32 reduces modulo 2^32).
* The parameter record reaches the shader through a Float32Array, so the
  integer parameters are rounded to the nearest IEEE binary32 value (exact
  for every value up to 2^24); the WGSL float-to-u32 conversion clamps to the
  u32 range.
* The JavaScript loop counter i of the CPU path is binary64: it counts
  exactly below 2^53 and its increment saturates at 2^53 (modelled by f64Incr
  and escapeLoopF64).  The exact-counter loop escapeLoop is proved to agree
  with the faithful one for caps up to 2^53, and every positive theorem about
  the evaluator carries the bound that keeps the counter exact.
-/

/-- JavaScript remainder a % b on nonnegative rationals (used by the colorizer
for (hue / 60) % 2): a minus b times the floor of a / b.  For the nonnegative
operands that occur here this coincides with the JavaScript semantics. -/
def jsMod (a b : ℚ) : ℚ := a - b * ⌊a / b⌋

/-- Escape-time while loop of calculateMandelbrotCPU:
while (i < max_iter && zx*zx + zy*zy < 4.0) with body
temp_zx = zx*zx - zy*zy + cx; zy = 2.0*zx*zy + cy; zx = temp_zx; i++.
The counter i starts at the given value and fuel is the remaining budget
max_iter - i, so the guard i < max_iter holds exactly while fuel is
positive. -/
def escapeLoop (cx cy : ℚ) : ℚ → ℚ → ℕ → ℕ → ℕ
  | _, _, i, 0 => i
  | zx, zy, i, fuel+1 =>
    if zx*zx + zy*zy < 4 then
      escapeLoop cx cy (zx*zx - zy*zy + cx) (2*zx*zy + cy) (i+1) fuel
    else i

/-- Per-cell computation of the CPU path: the coordinate transform
cx = (x/width - 0.75)*2.5, cy = (y/height - 0.5)*2.0 followed by the escape
loop started from zx = zy = 0, i = 0. -/
def cpuCell (width height maxIter x y : ℕ) : ℕ :=
  escapeLoop (((x : ℚ) / (width : ℚ) - 0.75) * 2.5)
             (((y : ℚ) / (height : ℚ) - 0.5) * 2)
             0 0 0 maxIter

/-- The reference evaluator calculateMandelbrotCPU: fills a
Uint32Array(width*height) in row-major order, data[y*width + x] = i; the
store into the u32 array reduces the counter modulo 2^32. -/
def calculateMandelbrotCPU (width height maxIter : ℕ) : List ℕ :=
  (List.range height).flatMap (fun y =>
    (List.range width).map (fun x => cpuCell width height maxIter x y % 2^32))

/-- Closed form of the escape count: the number of iterations of
z ← z² + c executed from the given z before zx*zx + zy*zy < 4 first fails,
capped at fuel.  This is the quantity the specification describes: the first
i with i = maxIter or zx*zx + zy*zy ≥ 4, both comparisons strict in the
loop guard. -/
def mandelEscape (cx cy zx zy : ℚ) : ℕ → ℕ
  | 0 => 0
  | fuel+1 =>
    if zx*zx + zy*zy < 4 then
      mandelEscape cx cy (zx*zx - zy*zy + cx) (2*zx*zy + cy) fuel + 1
    else 0

/-- The increment i++ of the CPU loop counter in binary64: exact below 2^53;
at 2^53 the true successor 2^53 + 1 is halfway between the representable
neighbours 2^53 and 2^53 + 2, and round-half-to-even returns 2^53, so the
counter sticks.  Counters reached from 0 by increments never exceed 2^53, so
no further rounding case can occur. -/
def f64Incr (i : ℕ) : ℕ := if i < 2^53 then i + 1 else i

/-- The per-cell while loop of calculateMandelbrotCPU with its counter
incremented in binary64 (f64Incr): guard i < max_iter && zx*zx + zy*zy < 4.0,
same body as escapeLoop.  When the unrolling budget fuel runs out while the
guard still holds the outcome is none (the loop is still running at that
depth); otherwise some i. -/
def escapeLoopF64 (cx cy : ℚ) (maxIter : ℕ) : ℚ → ℚ → ℕ → ℕ → Option ℕ
  | _, _, _, 0 => none
  | zx, zy, i, fuel+1 =>
    if i < maxIter ∧ zx*zx + zy*zy < 4 then
      escapeLoopF64 cx cy maxIter (zx*zx - zy*zy + cx) (2*zx*zy + cy)
        (f64Incr i) fuel
    else some i

/-- Termination of the binary64-counter loop started from z = 0, i = 0: some
finite unrolling budget drives the guard false. -/
def escapeLoopF64Terminates (cx cy : ℚ) (maxIter : ℕ) : Prop :=
  ∃ fuel, escapeLoopF64 cx cy maxIter 0 0 0 fuel ≠ none

/-- Fuel-bounded floor of the base-2 logarithm; 64 levels of fuel cover every
input that occurs in this development. -/
def log2Fuel : ℕ → ℕ → ℕ
  | 0, _ => 0
  | f+1, n => if n < 2 then 0 else log2Fuel f (n / 2) + 1

/-- Round a natural number to the nearest IEEE binary32 value (round half to
even), exact for n ≤ 2^24.  Models the marshalling of the integer parameters
through new Float32Array([width, height, MAX_ITERATIONS, 0]).  (Values at or
beyond 2^128, where binary32 overflows, do not occur here.) -/
def f32Round (n : ℕ) : ℕ :=
  if n ≤ 2^24 then n
  else
    let e := log2Fuel 64 n
    let u := 2^(e-23)
    let q := n / u
    let r := n % u
    if 2*r < u then q*u
    else if u < 2*r then (q+1)*u
    else if q % 2 = 0 then q*u else (q+1)*u

/-- WGSL conversion u32(e) of a float32 value: rounding toward zero, clamped
to the u32 range.  The integer-valued floats produced by f32Round need no
truncation, only the clamp. -/
def u32OfF32 (n : ℕ) : ℕ := min (f32Round n) (2^32 - 1)

/-- The while loop of the WGSL kernel:
while (i < u32(params.max_iter) && zx*zx + zy*zy < 4.0) with the same body as
the CPU loop; i is a u32, so its increment wraps modulo 2^32.  B is the
loop bound u32(params.max_iter); fuel bounds the unrolling (B steps always
suffice because i counts up from 0). -/
def wgslLoop (cx cy : ℚ) : ℚ → ℚ → ℕ → ℕ → ℕ → ℕ
  | _, _, i, _, 0 => i
  | zx, zy, i, B, fuel+1 =>
    if i < B ∧ zx*zx + zy*zy < 4 then
      wgslLoop cx cy (zx*zx - zy*zy + cx) (2*zx*zy + cy) ((i+1) % 2^32) B fuel
    else i

/-- Per-thread result of the WGSL kernel entry point main for thread
(gx, gy): none when the bounds guard
(global_id.x >= u32(params.width) || global_id.y >= u32(params.height))
returns early, otherwise some (index, value) for the single store
output[global_id.y * u32(params.width) + global_id.x] = i it performs.
Index arithmetic is u32, hence the reduction modulo 2^32; the coordinate
transform divides by the f32-rounded parameters. -/
def computeShaderMain (width height maxIter gx gy : ℕ) : Option (ℕ × ℕ) :=
  if gx ≥ u32OfF32 width ∨ gy ≥ u32OfF32 height then none
  else
    some ((gy * u32OfF32 width + gx) % 2^32,
      wgslLoop (((gx : ℚ) / (f32Round width : ℚ) - 0.75) * 2.5)
               (((gy : ℚ) / (f32Round height : ℚ) - 0.5) * 2)
               0 0 0 (u32OfF32 maxIter) (u32OfF32 maxIter))

/-- The module-level constant MAX_ITERATIONS of the source. -/
def MAX_ITERATIONS : ℕ := 255

/-- Per-pixel color computed inside drawMandelbrot for an escape count iter:
black when iter >= MAX_ITERATIONS, otherwise the six-sector HSL-to-RGB
conversion at hue = (360 * iter) / MAX_ITERATIONS, saturation 1,
lightness 0.5.  The triple holds the three values assigned to the RGBA
buffer (the alpha channel, constantly 255, is omitted).  Note the cap is the
fixed module constant, not a parameter. -/
def drawMandelbrotColor (iter : ℕ) : ℚ × ℚ × ℚ :=
  if iter ≥ MAX_ITERATIONS then (0, 0, 0)
  else
    let hue : ℚ := (360 * iter) / MAX_ITERATIONS
    let saturation : ℚ := 1
    let lightness : ℚ := 0.5
    let c := (1 - |2 * lightness - 1|) * saturation
    let x := c * (1 - |jsMod (hue / 60) 2 - 1|)
    let m := lightness - c / 2
    let rgb : ℚ × ℚ × ℚ :=
      if hue < 60 then (c, x, 0)
      else if hue < 120 then (x, c, 0)
      else if hue < 180 then (0, c, x)
      else if hue < 240 then (0, x, c)
      else if hue < 300 then (x, 0, c)
      else (c, 0, x)
    ((rgb.1 + m) * 255, (rgb.2.1 + m) * 255, (rgb.2.2 + m) * 255)

/-- Modelled from the spec: the parameterized colorizer contract
colorize(escapeCount, maxIter) of the specification (missing as such from the
source, whose colorizer reads the fixed constant): black when
escapeCount >= maxIter, otherwise the standard six-sector HSL-to-RGB formula
at hue = 360 * escapeCount / maxIter, saturation 1.0, lightness 0.5, sector
boundaries at 60, 120, 180, 240 and 300 degrees. -/
def specColorize (escapeCount maxIter : ℕ) : ℚ × ℚ × ℚ :=
  if escapeCount ≥ maxIter then (0, 0, 0)
  else
    let hue : ℚ := (360 * escapeCount) / maxIter
    let saturation : ℚ := 1
    let lightness : ℚ := 0.5
    let c := (1 - |2 * lightness - 1|) * saturation
    let x := c * (1 - |jsMod (hue / 60) 2 - 1|)
    let m := lightness - c / 2
    let rgb : ℚ × ℚ × ℚ :=
      if hue < 60 then (c, x, 0)
      else if hue < 120 then (x, c, 0)
      else if hue < 180 then (0, c, x)
      else if hue < 240 then (0, x, c)
      else if hue < 300 then (x, 0, c)
      else (c, 0, x)
    ((rgb.1 + m) * 255, (rgb.2.1 + m) * 255, (rgb.2.2 + m) * 255)

/-! ### Relating the loops to the closed-form escape count -/

/-- The CPU while loop adds the closed-form escape count to its starting
counter. -/
theorem escapeLoop_eq (cx cy : ℚ) :
    ∀ (fuel : ℕ) (zx zy : ℚ) (i : ℕ),
      escapeLoop cx cy zx zy i fuel = i + mandelEscape cx cy zx zy fuel := by
  intro fuel
  induction fuel with
  | zero => intro zx zy i; simp [escapeLoop, mandelEscape]
  | succ f ih =>
    intro zx zy i
    by_cases hlt : zx*zx + zy*zy < 4
    · rw [escapeLoop, mandelEscape, if_pos hlt, if_pos hlt, ih]
      omega
    · rw [escapeLoop, mandelEscape, if_neg hlt, if_neg hlt]
      omega

/-- The escape count never exceeds the fuel. -/
theorem mandelEscape_le (cx cy : ℚ) :
    ∀ (fuel : ℕ) (zx zy : ℚ), mandelEscape cx cy zx zy fuel ≤ fuel := by
  intro fuel
  induction fuel with
  | zero => intro zx zy; simp [mandelEscape]
  | succ f ih =>
    intro zx zy
    by_cases hlt : zx*zx + zy*zy < 4
    · rw [mandelEscape, if_pos hlt]
      exact Nat.succ_le_succ (ih _ _)
    · rw [mandelEscape, if_neg hlt]
      exact Nat.zero_le _

/-- At c = 0 starting from z = 0 the orbit stays at the origin and never
escapes, so the count equals the fuel. -/
theorem mandelEscape_origin : ∀ fuel : ℕ, mandelEscape 0 0 0 0 fuel = fuel := by
  intro fuel
  induction fuel with
  | zero => rfl
  | succ f ih =>
    rw [mandelEscape, if_pos (by norm_num)]
    norm_num [ih]

/-- Raising the cap clamps: the count at fuel f equals the count at any
larger fuel f', truncated at f. -/
theorem mandelEscape_min (cx cy : ℚ) :
    ∀ (f f' : ℕ) (zx zy : ℚ), f ≤ f' →
      mandelEscape cx cy zx zy f = min (mandelEscape cx cy zx zy f') f := by
  intro f
  induction f with
  | zero => intro f' zx zy _; simp [mandelEscape]
  | succ f ih =>
    intro f' zx zy hle
    match f', hle with
    | f'+1, hle =>
      by_cases hlt : zx*zx + zy*zy < 4
      · rw [mandelEscape, mandelEscape, if_pos hlt, if_pos hlt,
          ih f' _ _ (Nat.succ_le_succ_iff.mp hle)]
        omega
      · rw [mandelEscape, mandelEscape, if_neg hlt, if_neg hlt]
        simp

/-- The WGSL loop computes the same closed-form escape count as long as the
u32 counter cannot wrap: with bound B below 2^32 and enough fuel, the wrap on
the increment is the identity and the guard i < B holds exactly while fuel
remains. -/
theorem wgslLoop_eq (cx cy : ℚ) (B : ℕ) (hB : B < 2^32) :
    ∀ (fuel : ℕ) (zx zy : ℚ) (i : ℕ), i + fuel ≤ B →
      wgslLoop cx cy zx zy i B fuel = i + mandelEscape cx cy zx zy fuel := by
  intro fuel
  induction fuel with
  | zero => intro zx zy i _; simp [wgslLoop, mandelEscape]
  | succ f ih =>
    intro zx zy i hle
    by_cases hlt : zx*zx + zy*zy < 4
    · rw [wgslLoop, if_pos ⟨by omega, hlt⟩, mandelEscape, if_pos hlt,
        Nat.mod_eq_of_lt (by omega), ih _ _ _ (by omega)]
      omega
    · rw [wgslLoop, if_neg (fun hc => hlt hc.2), mandelEscape, if_neg hlt]
      omega

/-- For caps up to 2^53 the binary64 counter never saturates: the faithful
loop terminates within any budget exceeding the cap and returns exactly what
the exact-counter model computes. -/
theorem escapeLoopF64_eq (cx cy : ℚ) (m : ℕ) (hm : m ≤ 2^53) :
    ∀ (fuel : ℕ) (zx zy : ℚ) (i : ℕ), i ≤ m → m < i + fuel →
      escapeLoopF64 cx cy m zx zy i fuel
        = some (i + mandelEscape cx cy zx zy (m - i)) := by
  intro fuel
  induction fuel with
  | zero => intro zx zy i hi hlt; omega
  | succ f ih =>
    intro zx zy i hi hlt
    by_cases him : i < m
    · by_cases hz : zx*zx + zy*zy < 4
      · rw [escapeLoopF64, if_pos ⟨him, hz⟩, f64Incr, if_pos (by omega),
          ih _ _ _ (by omega) (by omega),
          show m - i = (m - (i+1)) + 1 by omega, mandelEscape, if_pos hz]
        congr 1
        omega
      · rw [escapeLoopF64, if_neg (fun hc => hz hc.2),
          show m - i = (m - (i+1)) + 1 by omega, mandelEscape, if_neg hz]
        simp
    · rw [escapeLoopF64, if_neg (fun hc => him hc.1),
        show m - i = 0 by omega]
      simp [mandelEscape]

/-- For caps above 2^53 the saturated counter can never reach the guard
bound: at a sample point of exactly c = 0 the orbit stays at the origin and
the loop is still running after every finite unrolling budget. -/
theorem escapeLoopF64_origin_none (m : ℕ) (hm : 2^53 < m) :
    ∀ (fuel i : ℕ), i ≤ 2^53 → escapeLoopF64 0 0 m 0 0 i fuel = none := by
  intro fuel
  induction fuel with
  | zero => intro i _; rfl
  | succ f ih =>
    intro i hi
    rw [escapeLoopF64, if_pos ⟨by omega, by norm_num⟩,
      show (0:ℚ)*0 - 0*0 + 0 = 0 by norm_num,
      show 2*(0:ℚ)*0 + 0 = 0 by norm_num]
    refine ih (f64Incr i) ?_
    rw [f64Incr]
    split_ifs <;> omega

/-! ### Row-major grid layout of the output array -/

/-- Length of a row-major grid assembled row by row. -/
theorem grid_length (g : ℕ → ℕ → ℕ) (w : ℕ) :
    ∀ h : ℕ,
      ((List.range h).flatMap (fun y =>
        (List.range w).map (fun x => g x y))).length = h * w := by
  intro h
  induction h with
  | zero => simp
  | succ h ih =>
    rw [List.range_succ, List.flatMap_append, List.length_append, ih]
    simp [Nat.succ_mul]

/-- Entry at row-major index y*w + x of a grid assembled row by row. -/
theorem grid_getD (g : ℕ → ℕ → ℕ) (w : ℕ) :
    ∀ (h x y : ℕ), x < w → y < h →
      ((List.range h).flatMap (fun y =>
        (List.range w).map (fun x => g x y))).getD (y*w + x) 0 = g x y := by
  intro h
  induction h with
  | zero => intro x y _ hy; exact absurd hy (Nat.not_lt_zero y)
  | succ h ih =>
    intro x y hx hy
    rw [List.range_succ, List.flatMap_append]
    rcases Nat.lt_succ_iff_lt_or_eq.mp hy with hy' | hy'
    · rw [List.getD_eq_getElem?_getD, List.getElem?_append_left
        (by rw [grid_length]; calc
              y*w + x < y*w + w := by omega
              _ = (y+1)*w := (Nat.succ_mul y w).symm
              _ ≤ h*w := Nat.mul_le_mul_right w hy'),
        ← List.getD_eq_getElem?_getD, ih x y hx hy']
    · subst hy'
      rw [List.getD_eq_getElem?_getD, List.getElem?_append_right
        (by rw [grid_length]; omega)]
      rw [grid_length]
      simp only [List.flatMap_cons, List.flatMap_nil, List.append_nil]
      rw [show y*w + x - y*w = x by omega, List.getElem?_map,
        List.getElem?_range hx]
      rfl

/-- Length of the CPU output array. -/
theorem calculateMandelbrotCPU_length (w h m : ℕ) :
    (calculateMandelbrotCPU w h m).length = h * w :=
  grid_length _ w h

/-- Entry of the CPU output array at row-major index y*w + x: the closed-form
escape count of the cell's sample point, reduced modulo 2^32 by the
Uint32Array store. -/
theorem calculateMandelbrotCPU_getD (w h m x y : ℕ) (hx : x < w) (hy : y < h) :
    (calculateMandelbrotCPU w h m).getD (y*w + x) 0
      = mandelEscape (((x : ℚ) / (w : ℚ) - 0.75) * 2.5)
          (((y : ℚ) / (h : ℚ) - 0.5) * 2) 0 0 m % 2^32 := by
  rw [calculateMandelbrotCPU,
    grid_getD (fun x y => cpuCell w h m x y % 2^32) w h x y hx hy]
  rw [cpuCell, escapeLoop_eq, Nat.zero_add]

/-! ### Parameter marshalling -/

/-- Binary32 rounding is exact up to 2^24. -/
theorem f32Round_of_le {n : ℕ} (hn : n ≤ 2^24) : f32Round n = n := by
  rw [f32Round, if_pos hn]

/-- WGSL u32 conversion of an f32-exact small parameter is the identity. -/
theorem u32OfF32_of_le {n : ℕ} (hn : n ≤ 2^24) : u32OfF32 n = n := by
  rw [u32OfF32, f32Round_of_le hn]
  exact Nat.min_eq_left (by omega)

/-- For parameters in the f32-exact range the kernel thread (x, y) with
x < width, y < height passes the guard and stores, at the row-major index,
the closed-form escape count of its sample point. -/
theorem computeShaderMain_eq (w h m x y : ℕ)
    (hw : w ≤ 2^24) (hh : h ≤ 2^24) (hm : m ≤ 2^24)
    (hx : x < w) (hy : y < h) :
    computeShaderMain w h m x y
      = some ((y*w + x) % 2^32,
          mandelEscape (((x : ℚ) / (w : ℚ) - 0.75) * 2.5)
            (((y : ℚ) / (h : ℚ) - 0.5) * 2) 0 0 m) := by
  rw [computeShaderMain, u32OfF32_of_le hw, u32OfF32_of_le hh,
    u32OfF32_of_le hm, f32Round_of_le hw, f32Round_of_le hh,
    if_neg (by omega), wgslLoop_eq _ _ m (by omega) m 0 0 0 (by omega),
    Nat.zero_add]

/-! ### The JavaScript remainder by 2 -/

/-- The remainder by 2 is twice the fractional part of the half. -/
theorem jsMod_two (a : ℚ) : jsMod a 2 = 2 * Int.fract (a / 2) := by
  rw [jsMod, Int.fract]
  ring

/-- The remainder by 2 is nonnegative. -/
theorem jsMod_two_nonneg (a : ℚ) : 0 ≤ jsMod a 2 := by
  rw [jsMod_two]
  have := Int.fract_nonneg (a / 2)
  linarith

/-- The remainder by 2 is below 2. -/
theorem jsMod_two_lt (a : ℚ) : jsMod a 2 < 2 := by
  rw [jsMod_two]
  have := Int.fract_lt_one (a / 2)
  linarith

/-! ### Colorizer facts -/

/-- Every channel value produced by the per-pixel color computation lies in
the byte range. -/
theorem drawMandelbrotColor_bounds (iter : ℕ) :
    0 ≤ (drawMandelbrotColor iter).1 ∧ (drawMandelbrotColor iter).1 ≤ 255 ∧
    0 ≤ (drawMandelbrotColor iter).2.1 ∧ (drawMandelbrotColor iter).2.1 ≤ 255 ∧
    0 ≤ (drawMandelbrotColor iter).2.2 ∧ (drawMandelbrotColor iter).2.2 ≤ 255 := by
  have ht0 := jsMod_two_nonneg (360 * (iter : ℚ) / (MAX_ITERATIONS : ℚ) / 60)
  have ht2 := jsMod_two_lt (360 * (iter : ℚ) / (MAX_ITERATIONS : ℚ) / 60)
  have habs0 : (0:ℚ) ≤ |jsMod (360 * (iter : ℚ) / (MAX_ITERATIONS : ℚ) / 60) 2 - 1| :=
    abs_nonneg _
  have habs1 : |jsMod (360 * (iter : ℚ) / (MAX_ITERATIONS : ℚ) / 60) 2 - 1| ≤ 1 :=
    abs_le.mpr ⟨by linarith, by linarith⟩
  have h05 : |2 * (0.5:ℚ) - 1| = 0 := by
    rw [show (2:ℚ) * 0.5 - 1 = 0 by norm_num, abs_zero]
  rcases h : drawMandelbrotColor iter with ⟨r, g, b⟩
  simp only [drawMandelbrotColor] at h
  rw [h05] at h
  split_ifs at h <;>
    · simp only [Prod.mk.injEq] at h
      obtain ⟨hr, hg, hb⟩ := h
      subst hr hg hb
      refine ⟨?_, ?_, ?_, ?_, ?_, ?_⟩ <;> simp only [Prod.fst, Prod.snd] <;>
        linarith

/-- The per-pixel color at the cap is black. -/
theorem drawMandelbrotColor_cap : drawMandelbrotColor MAX_ITERATIONS = (0, 0, 0) := by
  rw [drawMandelbrotColor, if_pos (le_refl _)]

/-- Concrete evaluation of the per-pixel color at escape count 1: pure red
with a small green component, not black. -/
theorem drawMandelbrotColor_one : drawMandelbrotColor 1 = (255, 6, 0) := by
  rw [drawMandelbrotColor]
  rw [if_neg (by norm_num [MAX_ITERATIONS])]
  have hj : jsMod (360 * (1 : ℚ) / (MAX_ITERATIONS : ℚ) / 60) 2 = 2/85 := by
    rw [jsMod]
    norm_num [MAX_ITERATIONS]
  norm_num [MAX_ITERATIONS] at hj ⊢
  rw [hj]
  norm_num [abs_of_nonpos, show |(2:ℚ)/85 - 1| = 83/85 by
    rw [abs_of_nonpos (by norm_num)]; norm_num]

/-! ### Cells whose sample point is exactly c = 0 -/

/-- For a cell whose affine transform lands exactly on c = 0 the CPU entry is
the cap reduced modulo 2^32 (the orbit never escapes). -/
theorem cpu_center_cell (w h m x y : ℕ) (hx : x < w) (hy : y < h)
    (hcx : (((x:ℕ) : ℚ) / ((w:ℕ) : ℚ) - 0.75) * 2.5 = 0)
    (hcy : (((y:ℕ) : ℚ) / ((h:ℕ) : ℚ) - 0.5) * 2 = 0) :
    (calculateMandelbrotCPU w h m).getD (y*w + x) 0 = m % 2^32 := by
  rw [calculateMandelbrotCPU_getD w h m x y hx hy, hcx, hcy, mandelEscape_origin]

/-- On the 4 × 2 grid, thread (3, 1) of the kernel samples exactly c = 0 and
stores, at index 7, the u32-converted f32 image of the cap. -/
theorem computeShaderMain_origin_cell (m : ℕ) :
    computeShaderMain 4 2 m 3 1 = some (7, u32OfF32 m) := by
  have hB : u32OfF32 m < 2^32 :=
    lt_of_le_of_lt (Nat.min_le_right _ _) (by norm_num)
  rw [computeShaderMain, u32OfF32_of_le (show (4:ℕ) ≤ 2^24 by norm_num),
    u32OfF32_of_le (show (2:ℕ) ≤ 2^24 by norm_num),
    f32Round_of_le (show (4:ℕ) ≤ 2^24 by norm_num),
    f32Round_of_le (show (2:ℕ) ≤ 2^24 by norm_num),
    if_neg (by norm_num)]
  rw [show (((3:ℕ) : ℚ) / ((4:ℕ) : ℚ) - 0.75) * 2.5 = 0 by norm_num,
    show (((1:ℕ) : ℚ) / ((2:ℕ) : ℚ) - 0.5) * 2 = 0 by norm_num,
    wgslLoop_eq 0 0 (u32OfF32 m) hB (u32OfF32 m) 0 0 0 (by omega),
    mandelEscape_origin, Nat.zero_add]
  norm_num

/-! ### Claims -/

/-- C1 (amended): the two paths agree element-wise — the kernel thread of
cell (x, y) stores, exactly at row-major index y*width + x, exactly the value
the reference evaluator holds there — in the regimes where every operation
either path performs is exact in both of their numeric formats (binary32
kernel orbit, binary64 reference orbit): parameters in the f32-exact range
(width, height, maxIter at most 2^24) with the index space fitting u32, and
additionally either maxIter = 0 (no orbit arithmetic runs at all) or the cell
sampling exactly c = 0 (both orbits are identically zero).  Already at
maxIter = 2^24 + 1 such a cell differs between the paths (counterexample);
at cells whose orbit arithmetic rounds, element-wise agreement is a
bit-level floating-point question this embedding cannot settle (cf. the C3
status). -/
theorem parallel_matches_reference (w h m x y : ℕ)
    (hw24 : w ≤ 2^24) (hh24 : h ≤ 2^24) (hm24 : m ≤ 2^24)
    (hwh : h * w ≤ 2^32) (hx : x < w) (hy : y < h)
    (hexact : m = 0 ∨
      ((((x:ℕ) : ℚ) / ((w:ℕ) : ℚ) - 0.75) * 2.5 = 0 ∧
       (((y:ℕ) : ℚ) / ((h:ℕ) : ℚ) - 0.5) * 2 = 0)) :
    computeShaderMain w h m x y
      = some (y*w + x, (calculateMandelbrotCPU w h m).getD (y*w + x) 0) := by
  have hidx : y*w + x < 2^32 := by
    have h1 : y*w + x < (y+1)*w := by
      rw [Nat.succ_mul]; omega
    have h2 : (y+1)*w ≤ h*w := Nat.mul_le_mul_right w hy
    omega
  rw [computeShaderMain_eq w h m x y hw24 hh24 hm24 hx hy,
    calculateMandelbrotCPU_getD w h m x y hx hy, Nat.mod_eq_of_lt hidx]
  rcases hexact with hm0 | ⟨hcx, hcy⟩
  · subst hm0
    simp [mandelEscape]
  · rw [hcx, hcy, mandelEscape_origin, Nat.mod_eq_of_lt (by omega)]

/-- Witness for C1 at (width, height, maxIter) = (4, 2, 255), at the exact
c = 0 cell (3, 1). -/
theorem parallel_matches_reference_w :
    ((4:ℕ) ≤ 2^24 ∧ (2:ℕ) ≤ 2^24 ∧ (255:ℕ) ≤ 2^24 ∧ (2*4:ℕ) ≤ 2^32 ∧
      (3:ℕ) < 4 ∧ (1:ℕ) < 2 ∧
      ((255:ℕ) = 0 ∨
        ((((3:ℕ) : ℚ) / ((4:ℕ) : ℚ) - 0.75) * 2.5 = 0 ∧
         (((1:ℕ) : ℚ) / ((2:ℕ) : ℚ) - 0.5) * 2 = 0))) ∧
    computeShaderMain 4 2 255 3 1
      = some (1*4 + 3, (calculateMandelbrotCPU 4 2 255).getD (1*4 + 3) 0) :=
  ⟨⟨by norm_num, by norm_num, by norm_num, by norm_num, by norm_num, by norm_num,
    Or.inr ⟨by norm_num, by norm_num⟩⟩,
   parallel_matches_reference 4 2 255 3 1 (by norm_num) (by norm_num)
     (by norm_num) (by norm_num) (by norm_num) (by norm_num)
     (Or.inr ⟨by norm_num, by norm_num⟩)⟩

/-- C1 counterexample: at (width, height, maxIter) = (4, 2, 2^24 + 1) the cell
(3, 1) samples exactly c = 0, which never escapes.  The cap 16777217 is the
first integer not representable in binary32: the Float32Array marshalling
rounds it to 16777216, so the kernel iterates 16777216 times, while the CPU
path iterates 16777217 times — the two paths differ at index 7, refuting the
unrestricted element-wise equality. -/
theorem parallel_matches_reference_cex :
    computeShaderMain 4 2 16777217 3 1 = some (7, 16777216) ∧
    (calculateMandelbrotCPU 4 2 16777217).getD 7 0 = 16777217 ∧
    (16777216 : ℕ) ≠ 16777217 := by
  refine ⟨?_, ?_, by norm_num⟩
  · rw [computeShaderMain_origin_cell,
      show u32OfF32 16777217 = 16777216 from by decide]
  · have hcell := cpu_center_cell 4 2 16777217 3 1 (by norm_num) (by norm_num)
      (by norm_num) (by norm_num)
    rw [show ((1:ℕ)*4+3 : ℕ) = 7 from rfl] at hcell
    rw [hcell]
    norm_num

/-- C2 (amended): for maxIter < 2^53 — the range in which the binary64 loop
counter counts exactly and the loop terminates (escapeLoopF64_eq; beyond it
the counter saturates and the source loop never returns at non-escaping
cells, see the C7 counterexample) — the reference evaluator returns exactly
width*height values in row-major order; the entry at y*width + x is the
escape count of the recurrence z ← z² + c at
c = ((x/width - 0.75)·2.5, (y/height - 0.5)·2), stopped at the first i with
i = maxIter or zx·zx + zy·zy ≥ 4 (both guards strict), reduced modulo 2^32
by the Uint32Array store — exact equality holds whenever maxIter < 2^32 —
and every entry lies in [0, maxIter].  The first conjunct after the length
certifies the faithfulness of the exact counter under the bound: the loop
with the binary64-saturating counter terminates and ends at exactly that
escape count. -/
theorem reference_cell_formula (w h m x y : ℕ) (hm53 : m < 2^53)
    (hx : x < w) (hy : y < h) :
    (calculateMandelbrotCPU w h m).length = w * h ∧
    escapeLoopF64 (((x:ℚ)/(w:ℚ) - 0.75) * 2.5) (((y:ℚ)/(h:ℚ) - 0.5) * 2) m
        0 0 0 (m+1)
      = some (mandelEscape (((x:ℚ)/(w:ℚ) - 0.75) * 2.5)
          (((y:ℚ)/(h:ℚ) - 0.5) * 2) 0 0 m) ∧
    (calculateMandelbrotCPU w h m).getD (y*w + x) 0
      = mandelEscape (((x:ℚ)/(w:ℚ) - 0.75) * 2.5)
          (((y:ℚ)/(h:ℚ) - 0.5) * 2) 0 0 m % 2^32 ∧
    (calculateMandelbrotCPU w h m).getD (y*w + x) 0 ≤ m ∧
    (m < 2^32 →
      (calculateMandelbrotCPU w h m).getD (y*w + x) 0
        = mandelEscape (((x:ℚ)/(w:ℚ) - 0.75) * 2.5)
            (((y:ℚ)/(h:ℚ) - 0.5) * 2) 0 0 m) := by
  refine ⟨by rw [calculateMandelbrotCPU_length, Nat.mul_comm],
    by rw [escapeLoopF64_eq _ _ m (le_of_lt hm53) (m+1) 0 0 0 (Nat.zero_le m)
        (by omega), Nat.sub_zero, Nat.zero_add],
    calculateMandelbrotCPU_getD w h m x y hx hy, ?_, ?_⟩
  · rw [calculateMandelbrotCPU_getD w h m x y hx hy]
    exact le_trans (Nat.mod_le _ _) (mandelEscape_le _ _ _ _ _)
  · intro hm
    rw [calculateMandelbrotCPU_getD w h m x y hx hy,
      Nat.mod_eq_of_lt (lt_of_le_of_lt (mandelEscape_le _ _ _ _ _) hm)]

/-- Witness for C2 at (width, height, maxIter) = (2, 2, 3), cell (1, 0). -/
theorem reference_cell_formula_w :
    ((3:ℕ) < 2^53 ∧ (1:ℕ) < 2 ∧ (0:ℕ) < 2) ∧
    ((calculateMandelbrotCPU 2 2 3).length = 2 * 2 ∧
     escapeLoopF64 ((((1:ℕ):ℚ)/((2:ℕ):ℚ) - 0.75) * 2.5)
         ((((0:ℕ):ℚ)/((2:ℕ):ℚ) - 0.5) * 2) 3 0 0 0 (3+1)
       = some (mandelEscape ((((1:ℕ):ℚ)/((2:ℕ):ℚ) - 0.75) * 2.5)
           ((((0:ℕ):ℚ)/((2:ℕ):ℚ) - 0.5) * 2) 0 0 3) ∧
     (calculateMandelbrotCPU 2 2 3).getD (0*2 + 1) 0
       = mandelEscape ((((1:ℕ):ℚ)/((2:ℕ):ℚ) - 0.75) * 2.5)
           ((((0:ℕ):ℚ)/((2:ℕ):ℚ) - 0.5) * 2) 0 0 3 % 2^32 ∧
     (calculateMandelbrotCPU 2 2 3).getD (0*2 + 1) 0 ≤ 3 ∧
     ((3:ℕ) < 2^32 →
       (calculateMandelbrotCPU 2 2 3).getD (0*2 + 1) 0
         = mandelEscape ((((1:ℕ):ℚ)/((2:ℕ):ℚ) - 0.75) * 2.5)
             ((((0:ℕ):ℚ)/((2:ℕ):ℚ) - 0.5) * 2) 0 0 3)) :=
  ⟨⟨by norm_num, by norm_num, by norm_num⟩,
   reference_cell_formula 2 2 3 1 0 (by norm_num) (by norm_num) (by norm_num)⟩

/-- C2 counterexample: at (width, height, maxIter) = (4, 2, 2^32) the cell
(3, 1) samples exactly c = 0; the loop runs the full 2^32 iterations but the
Uint32Array store reduces the counter modulo 2^32, so the entry at index 7 is
0, not the iteration count 2^32 the claim demands. -/
theorem reference_cell_formula_cex :
    (calculateMandelbrotCPU 4 2 (2^32)).getD 7 0 = 0 ∧
    mandelEscape ((((3:ℕ):ℚ)/((4:ℕ):ℚ) - 0.75) * 2.5)
      ((((1:ℕ):ℚ)/((2:ℕ):ℚ) - 0.5) * 2) 0 0 (2^32) = 2^32 ∧
    (0:ℕ) ≠ 2^32 := by
  refine ⟨?_, ?_, by norm_num⟩
  · have hcell := cpu_center_cell 4 2 (2^32) 3 1 (by norm_num) (by norm_num)
      (by norm_num) (by norm_num)
    rw [show ((1:ℕ)*4+3 : ℕ) = 7 from rfl] at hcell
    rw [hcell]
    norm_num
  · rw [show (((3:ℕ):ℚ)/((4:ℕ):ℚ) - 0.75) * 2.5 = 0 by norm_num,
      show (((1:ℕ):ℚ)/((2:ℕ):ℚ) - 0.5) * 2 = 0 by norm_num, mandelEscape_origin]

/-- C4 (amended): the per-pixel colorizer of drawMandelbrot implements
exactly the spec's colorize contract — black at or above the cap, otherwise
the standard six-sector HSL-to-RGB conversion of hue = 360·escapeCount/cap at
saturation 1, lightness 0.5 with boundaries at 60°, 120°, 180°, 240°, 300° —
but with the cap fixed to the module constant MAX_ITERATIONS = 255 rather
than parameterized by the maxIter of the evaluation (the application always
evaluates with this same constant). -/
theorem colorizer_hsl_formula :
    (∀ iter : ℕ, drawMandelbrotColor iter = specColorize iter MAX_ITERATIONS) ∧
    MAX_ITERATIONS = 255 :=
  ⟨fun _ => rfl, rfl⟩

/-- C4 counterexample: were the colorizer parameterized by the cap, then with
maxIter = 1 the escape count 1 would satisfy escapeCount ≥ maxIter and be
colored black; the code's colorizer returns (255, 6, 0) for escape count 1,
because it compares against the fixed 255 instead. -/
theorem colorizer_hsl_formula_cex :
    drawMandelbrotColor 1 = (255, 6, 0) ∧ specColorize 1 1 = (0, 0, 0) ∧
    drawMandelbrotColor 1 ≠ specColorize 1 1 := by
  refine ⟨drawMandelbrotColor_one, ?_, ?_⟩
  · rw [specColorize, if_pos (le_refl 1)]
  · rw [drawMandelbrotColor_one, specColorize, if_pos (le_refl 1)]
    intro hcontra
    have h1 : (255:ℚ) = 0 := congrArg Prod.fst hcontra
    norm_num at h1

/-- C5 (amended): neither evaluator validates its parameters.  With a zero
width or height the reference evaluator does not fail: it normally returns
the empty output array (of length width*height = 0) after doing no per-cell
work, and every thread of the parallel kernel is stopped by its bounds guard
and stores nothing.  No InvalidParameters rejection exists in the code. -/
theorem no_parameter_validation (h m gx gy : ℕ) :
    calculateMandelbrotCPU 0 h m = [] ∧ calculateMandelbrotCPU h 0 m = [] ∧
    computeShaderMain 0 h m gx gy = none ∧ computeShaderMain h 0 m gx gy = none := by
  have h0 : u32OfF32 0 = 0 := u32OfF32_of_le (by norm_num)
  refine ⟨?_, ?_, ?_, ?_⟩
  · have hlen := calculateMandelbrotCPU_length 0 h m
    rw [Nat.mul_zero] at hlen
    exact List.length_eq_zero.mp hlen
  · rw [calculateMandelbrotCPU]
    rfl
  · rw [computeShaderMain, if_pos (Or.inl (h0 ▸ Nat.zero_le gx))]
  · rw [computeShaderMain, if_pos (Or.inr (h0 ▸ Nat.zero_le gy))]

/-- C5 counterexample: at width = 0, height = 5, maxIter = 10 the reference
evaluator does not reject the parameters: it returns an output array — the
empty one — contradicting the claim that evaluation fails fast and produces
no output array. -/
theorem no_parameter_validation_cex :
    calculateMandelbrotCPU 0 5 10 = [] ∧
    (calculateMandelbrotCPU 0 5 10).length = 0 * 5 := by
  constructor
  · rfl
  · rfl

/-- C6 (amended): the code's colorizer is a total pure function of the escape
count alone: for every escape count each of the three channel values lies in
[0, 255], and at the fixed cap MAX_ITERATIONS = 255 (the only cap the
application ever evaluates with) the color is black.  The claim's instance
maxIter = 1 fails because the colorizer is not parameterized, see the
counterexample. -/
theorem colorizer_totality :
    (∀ iter : ℕ,
      0 ≤ (drawMandelbrotColor iter).1 ∧ (drawMandelbrotColor iter).1 ≤ 255 ∧
      0 ≤ (drawMandelbrotColor iter).2.1 ∧ (drawMandelbrotColor iter).2.1 ≤ 255 ∧
      0 ≤ (drawMandelbrotColor iter).2.2 ∧ (drawMandelbrotColor iter).2.2 ≤ 255) ∧
    drawMandelbrotColor MAX_ITERATIONS = (0, 0, 0) :=
  ⟨drawMandelbrotColor_bounds, drawMandelbrotColor_cap⟩

/-- C6 counterexample: the claim requires colorize(maxIter, maxIter) = (0,0,0)
for maxIter = 1, but the code's colorizer at escape count 1 has red channel
255, not 0 (its cap is the fixed 255, not 1). -/
theorem colorizer_totality_cex :
    (drawMandelbrotColor 1).1 = 255 ∧ (255 : ℚ) ≠ 0 := by
  constructor
  · rw [drawMandelbrotColor_one]
  · norm_num

/-- C7 (amended): for maxIter up to 2^53 — the range in which the binary64
loop counter counts exactly — the reference evaluator terminates: it returns
a full width*height array, and the per-cell while loop, run with the
binary64-saturating counter, exits within maxIter + 1 evaluations of its
guard with final counter cpuCell — exactly the number of iterations executed
— at most maxIter.  The original unbounded claim fails: beyond 2^53 the
saturating counter never reaches the guard bound and the loop runs forever
at non-escaping cells, see the counterexample. -/
theorem reference_terminates (w h m : ℕ) (hm : m ≤ 2^53) :
    (calculateMandelbrotCPU w h m).length = w * h ∧
    ∀ x y : ℕ, x < w → y < h →
      escapeLoopF64 (((x:ℚ)/(w:ℚ) - 0.75) * 2.5) (((y:ℚ)/(h:ℚ) - 0.5) * 2) m
          0 0 0 (m+1)
        = some (cpuCell w h m x y) ∧
      cpuCell w h m x y ≤ m := by
  refine ⟨by rw [calculateMandelbrotCPU_length, Nat.mul_comm],
    fun x y _ _ => ⟨?_, ?_⟩⟩
  · rw [escapeLoopF64_eq _ _ m hm (m+1) 0 0 0 (Nat.zero_le m) (by omega),
      Nat.sub_zero, cpuCell, escapeLoop_eq]
  · rw [cpuCell, escapeLoop_eq, Nat.zero_add]
    exact mandelEscape_le _ _ _ _ _

/-- Witness for C7 at (width, height, maxIter) = (2, 2, 5), cell (1, 1). -/
theorem reference_terminates_w :
    ((5:ℕ) ≤ 2^53 ∧ (1:ℕ) < 2 ∧ (1:ℕ) < 2) ∧
    (calculateMandelbrotCPU 2 2 5).length = 2 * 2 ∧
    (escapeLoopF64 ((((1:ℕ):ℚ)/((2:ℕ):ℚ) - 0.75) * 2.5)
         ((((1:ℕ):ℚ)/((2:ℕ):ℚ) - 0.5) * 2) 5 0 0 0 (5+1)
       = some (cpuCell 2 2 5 1 1) ∧
     cpuCell 2 2 5 1 1 ≤ 5) :=
  ⟨⟨by norm_num, by norm_num, by norm_num⟩,
   (reference_terminates 2 2 5 (by norm_num)).1,
   (reference_terminates 2 2 5 (by norm_num)).2 1 1 (by norm_num) (by norm_num)⟩

/-- C7 counterexample: at maxIter = 2^53 + 2 (a binary64-representable cap
above the saturation point) the loop of a cell sampling exactly c = 0 — such
as cell (3, 1) of the 4 × 2 grid, whose transform the second and third
conjuncts evaluate — never terminates: its binary64 counter sticks at 2^53,
the guard i < max_iter stays true, and no finite unrolling budget makes the
loop exit, so the evaluator returns no array, refuting the unbounded
termination claim. -/
theorem reference_terminates_cex :
    ¬ escapeLoopF64Terminates 0 0 (2^53 + 2) ∧
    (((3:ℕ) : ℚ) / ((4:ℕ) : ℚ) - 0.75) * 2.5 = 0 ∧
    (((1:ℕ) : ℚ) / ((2:ℕ) : ℚ) - 0.5) * 2 = 0 := by
  refine ⟨?_, by norm_num, by norm_num⟩
  rintro ⟨fuel, hne⟩
  exact hne (escapeLoopF64_origin_none (2^53 + 2) (by norm_num) fuel 0
    (Nat.zero_le _))

/-- C8: with maxIter = 0 every cell's escape count is 0 on every grid, for
both paths: every entry of the reference evaluator's array is 0, and every
kernel thread that passes the bounds guard stores the value 0 (threads
stopped by the guard store nothing). -/
theorem maxiter_zero_all_cells_zero (w h x y : ℕ) (hx : x < w) (hy : y < h) :
    (calculateMandelbrotCPU w h 0).getD (y*w + x) 0 = 0 ∧
    ∀ idx v : ℕ, computeShaderMain w h 0 x y = some (idx, v) → v = 0 := by
  constructor
  · rw [calculateMandelbrotCPU_getD w h 0 x y hx hy]
    rfl
  · intro idx v hsome
    rw [computeShaderMain] at hsome
    by_cases hg : x ≥ u32OfF32 w ∨ y ≥ u32OfF32 h
    · rw [if_pos hg] at hsome
      exact absurd hsome (by simp)
    · rw [if_neg hg, u32OfF32_of_le (show (0:ℕ) ≤ 2^24 by norm_num)] at hsome
      simp only [wgslLoop, Option.some.injEq, Prod.mk.injEq] at hsome
      exact hsome.2.symm

/-- Witness for C8 at (width, height) = (3, 2), cell (2, 1). -/
theorem maxiter_zero_all_cells_zero_w :
    ((2:ℕ) < 3 ∧ (1:ℕ) < 2) ∧
    ((calculateMandelbrotCPU 3 2 0).getD (1*3 + 2) 0 = 0 ∧
     ∀ idx v : ℕ, computeShaderMain 3 2 0 2 1 = some (idx, v) → v = 0) :=
  ⟨⟨by norm_num, by norm_num⟩,
   maxiter_zero_all_cells_zero 3 2 2 1 (by norm_num) (by norm_num)⟩

/-- C9: on the 256 × 256 grid with maxIter = 255 the cell (x, y) = (192, 128)
samples exactly c = 0 (192/256 = 0.75, 128/256 = 0.5), an interior point of
the set, and its escape count under the reference evaluator is exactly the
cap 255. -/
theorem interior_point_at_cap :
    (calculateMandelbrotCPU 256 256 255).getD (128*256 + 192) 0 = 255 := by
  have hcell := cpu_center_cell 256 256 255 192 128 (by norm_num) (by norm_num)
    (by norm_num) (by norm_num)
  rw [hcell]
  norm_num

/-- C10 (amended): escape counts are monotone clamps of one underlying
escape time: for caps m ≤ m' with m' < 2^32 (so that the u32 store is exact),
the entry of the reference evaluator at any cell under cap m equals the
entry under cap m' truncated at m.  Beyond 2^32 the modulo wrap of the store
breaks the clamp identity, see the counterexample. -/
theorem escape_monotone_clamp (w h m n x y : ℕ) (hx : x < w) (hy : y < h)
    (hmn : m ≤ n) (hn : n < 2^32) :
    (calculateMandelbrotCPU w h m).getD (y*w + x) 0
      = min ((calculateMandelbrotCPU w h n).getD (y*w + x) 0) m := by
  rw [calculateMandelbrotCPU_getD w h m x y hx hy,
    calculateMandelbrotCPU_getD w h n x y hx hy,
    Nat.mod_eq_of_lt (lt_of_le_of_lt (mandelEscape_le _ _ _ _ _) (lt_of_le_of_lt hmn hn)),
    Nat.mod_eq_of_lt (lt_of_le_of_lt (mandelEscape_le _ _ _ _ _) hn),
    mandelEscape_min _ _ m n _ _ hmn]

/-- Witness for C10 at (width, height) = (2, 2), cell (1, 0), caps 2 ≤ 5. -/
theorem escape_monotone_clamp_w :
    ((1:ℕ) < 2 ∧ (0:ℕ) < 2 ∧ (2:ℕ) ≤ 5 ∧ (5:ℕ) < 2^32) ∧
    (calculateMandelbrotCPU 2 2 2).getD (0*2 + 1) 0
      = min ((calculateMandelbrotCPU 2 2 5).getD (0*2 + 1) 0) 2 :=
  ⟨⟨by norm_num, by norm_num, by norm_num, by norm_num⟩,
   escape_monotone_clamp 2 2 2 5 1 0 (by norm_num) (by norm_num)
     (by norm_num) (by norm_num)⟩

/-- C10 counterexample: at the c = 0 cell (3, 1) of the 4 × 2 grid, the entry
under cap 2^32 is 0 (the u32 store wraps), while the entry under the larger
cap 2^32 + 5 is 5, so min(entry(m'), m) = 5 ≠ 0 = entry(m): the clamp
identity fails once the cap reaches 2^32. -/
theorem escape_monotone_clamp_cex :
    (calculateMandelbrotCPU 4 2 (2^32)).getD 7 0 = 0 ∧
    min ((calculateMandelbrotCPU 4 2 (2^32 + 5)).getD 7 0) (2^32) = 5 ∧
    (0 : ℕ) ≠ 5 := by
  refine ⟨?_, ?_, by norm_num⟩
  · have hcell := cpu_center_cell 4 2 (2^32) 3 1 (by norm_num) (by norm_num)
      (by norm_num) (by norm_num)
    rw [show ((1:ℕ)*4+3 : ℕ) = 7 from rfl] at hcell
    rw [hcell]
    norm_num
  · have hcell := cpu_center_cell 4 2 (2^32 + 5) 3 1 (by norm_num) (by norm_num)
      (by norm_num) (by norm_num)
    rw [show ((1:ℕ)*4+3 : ℕ) = 7 from rfl] at hcell
    rw [hcell]
    norm_num
